import Mathlib

/-!
Verification of the AStack agent (astack.cpp).

Shallow embedding of the AStack JVMTI agent's core logic, translated from
`src/astack.cpp`, together with theorems settling the specification claims.

Conventions of the embedding:

* C strings are modelled as `List Char`; `jint`/`jlocation` as `Int`;
  bitmask thread states as `Nat`.
* JVMTI calls that can fail are modelled by `Option` results supplied as
  inputs (the external runtime is a collaborator, not part of this code).
* The process-wide mutable globals (`x_trace`, `x_frames`,
  `x_trace_running`) become an explicit `AgentState` threaded through the
  operations; the single listener thread of the agent serves requests
  sequentially, so `dumpThread` is embedded as a sequential state
  transformer in which the target thread's asynchronous handler runs
  between signal delivery and the successful spin-wait exit (parameter
  `handlerCompletes` selects the success/timeout schedule).
* Each operation additionally records the ordered list of the
  synchronization-relevant actions it performs (`Event`) and the lines it
  writes to the connection (`SinkLine`), so ordering claims about lock
  release, signal delivery and output can be stated directly.
-/

namespace AStack

/-! Constants from astack.cpp -/

/-- `static const jint NATIVE_METHOD_LINENO = -3` (value used by the JVM). -/
def NATIVE_METHOD_LINENO : Int := -3

/-- `static const int MAX_FRAMES = 128`. -/
def MAX_FRAMES : Nat := 128

/-! fixClassSignature (astack.cpp lines 66-82) -/

/-- The test on line 69 of the source: the name is long enough and carries
the wrapper-marker pair `L` ... `;`. -/
def wrapperMarked (s : List Char) : Prop :=
  2 < s.length ∧ s.head? = some 'L' ∧ s.getLast? = some ';'

instance (s : List Char) : Decidable (wrapperMarked s) := by
  unfold wrapperMarked; infer_instance

/-- `fixClassSignature` from the source: if the string is longer than two
characters, starts with `L` and ends with `;`, drop those two characters
(the `memmove` plus truncation) and rewrite `/` to `.` in the remainder;
otherwise leave the string untouched. -/
def fixClassSignature (s : List Char) : List Char :=
  if s.length ≤ 2 ∨ s.head? ≠ some 'L' ∨ s.getLast? ≠ some ';' then s
  else ((s.drop 1).take (s.length - 2)).map (fun c => if c = '/' then '.' else c)

/-! getLineNumber (astack.cpp lines 84-116) -/

/-- One `jvmtiLineNumberEntry`. -/
structure LineEntry where
  start_location : Int
  line_number : Int
deriving DecidableEq

/-- The `for` loop of `getLineNumber` (source lines 101-108).  The loop
walks `table[1..]`; `last` holds `table[i-1].start_location` and
`prevLine` holds `table[i-1].line_number`.  On the break (source line
103-105) the pair `(table[i-1].line_number, last)` is returned; falling
off the end returns `(-1, last)` with `last` the final start location. -/
def lineScan (target : Int) : List LineEntry → Int → Int → Int × Int
  | [], last, _ => (-1, last)
  | e :: rest, last, prevLine =>
      if target < e.start_location ∧ last ≤ target then (prevLine, last)
      else lineScan target rest e.start_location e.line_number

/-- `getLineNumber`: a negative target is returned unchanged (source lines
86-88, before the table is even fetched); a failed `GetLineNumberTable`
(modelled by `none`) yields `-1`; a one-entry table yields that entry's
line; otherwise the scan loop runs, with the trailing fix-up of source
lines 109-111 (`target >= last` with the line still unset selects the last
entry's line). -/
def getLineNumber (tbl : Option (List LineEntry)) (target : Int) : Int :=
  if target < 0 then target
  else
    match tbl with
    | none => -1
    | some [] => -1
    | some [e] => e.line_number
    | some (e0 :: e1 :: rest) =>
        if (lineScan target (e1 :: rest) e0.start_location e0.line_number).1 = -1 ∧
            (lineScan target (e1 :: rest) e0.start_location e0.line_number).2 ≤ target
        then ((e1 :: rest).getLastD e1).line_number
        else (lineScan target (e1 :: rest) e0.start_location e0.line_number).1

/-- All line numbers carried by a (possibly absent) table. -/
def tableLines : Option (List LineEntry) → List Int
  | none => []
  | some l => l.map (fun e => e.line_number)

/-! threadStateEnum (astack.cpp lines 118-154) -/

def JVMTI_THREAD_STATE_ALIVE : Nat := 0x0001
def JVMTI_THREAD_STATE_TERMINATED : Nat := 0x0002
def JVMTI_THREAD_STATE_RUNNABLE : Nat := 0x0004
def JVMTI_THREAD_STATE_WAITING_INDEFINITELY : Nat := 0x0010
def JVMTI_THREAD_STATE_WAITING_WITH_TIMEOUT : Nat := 0x0020
def JVMTI_THREAD_STATE_SLEEPING : Nat := 0x0040
def JVMTI_THREAD_STATE_IN_OBJECT_WAIT : Nat := 0x0100
def JVMTI_THREAD_STATE_PARKED : Nat := 0x0200
def JVMTI_THREAD_STATE_BLOCKED_ON_MONITOR_ENTER : Nat := 0x0400

/-- The C test `state & mask`. -/
def hasState (state mask : Nat) : Bool := (state &&& mask) != 0

/-- `threadStateEnum` translated clause for clause from the source's nested
`if` chain. -/
def threadStateEnum (state : Nat) : String :=
  if hasState state JVMTI_THREAD_STATE_ALIVE then
    if hasState state JVMTI_THREAD_STATE_RUNNABLE then "RUNNABLE"
    else if hasState state JVMTI_THREAD_STATE_BLOCKED_ON_MONITOR_ENTER then
      "BLOCKED (on object monitor)"
    else if hasState state JVMTI_THREAD_STATE_WAITING_INDEFINITELY then
      if hasState state JVMTI_THREAD_STATE_IN_OBJECT_WAIT then
        "WAITING (on object monitor)"
      else if hasState state JVMTI_THREAD_STATE_PARKED then "WAITING (parking)"
      else "WAITING"
    else if hasState state JVMTI_THREAD_STATE_WAITING_WITH_TIMEOUT then
      if hasState state JVMTI_THREAD_STATE_IN_OBJECT_WAIT then
        "TIMED_WAITING (on object monitor)"
      else if hasState state JVMTI_THREAD_STATE_PARKED then
        "TIMED_WAITING (parking)"
      else if hasState state JVMTI_THREAD_STATE_SLEEPING then
        "TIMED_WAITING (sleeping)"
      else "TIMED_WAITING"
    else "UNKNOWN"
  else if hasState state JVMTI_THREAD_STATE_TERMINATED then "TERMINATED"
  else "NEW"

/-- The spec's state table (spec section 4.3) read as a flat first-match
priority list, with `not-yet-started` meaning neither the alive nor the
terminated bit, `terminated` meaning the terminated bit on a non-alive
state, and the amended label `BLOCKED (on object monitor)` for the
blocked case (the only change the code forces to the table, which writes
the bare label `BLOCKED`). -/
def specStateLabelAmended (state : Nat) : String :=
  if !hasState state JVMTI_THREAD_STATE_ALIVE &&
      !hasState state JVMTI_THREAD_STATE_TERMINATED then "NEW"
  else if !hasState state JVMTI_THREAD_STATE_ALIVE &&
      hasState state JVMTI_THREAD_STATE_TERMINATED then "TERMINATED"
  else if hasState state JVMTI_THREAD_STATE_RUNNABLE then "RUNNABLE"
  else if hasState state JVMTI_THREAD_STATE_BLOCKED_ON_MONITOR_ENTER then
    "BLOCKED (on object monitor)"
  else if hasState state JVMTI_THREAD_STATE_WAITING_INDEFINITELY &&
      hasState state JVMTI_THREAD_STATE_IN_OBJECT_WAIT then
    "WAITING (on object monitor)"
  else if hasState state JVMTI_THREAD_STATE_WAITING_INDEFINITELY &&
      hasState state JVMTI_THREAD_STATE_PARKED then "WAITING (parking)"
  else if hasState state JVMTI_THREAD_STATE_WAITING_INDEFINITELY then "WAITING"
  else if hasState state JVMTI_THREAD_STATE_WAITING_WITH_TIMEOUT &&
      hasState state JVMTI_THREAD_STATE_IN_OBJECT_WAIT then
    "TIMED_WAITING (on object monitor)"
  else if hasState state JVMTI_THREAD_STATE_WAITING_WITH_TIMEOUT &&
      hasState state JVMTI_THREAD_STATE_PARKED then "TIMED_WAITING (parking)"
  else if hasState state JVMTI_THREAD_STATE_WAITING_WITH_TIMEOUT &&
      hasState state JVMTI_THREAD_STATE_SLEEPING then "TIMED_WAITING (sleeping)"
  else if hasState state JVMTI_THREAD_STATE_WAITING_WITH_TIMEOUT then
    "TIMED_WAITING"
  else "UNKNOWN"

/-! printCallFrame (astack.cpp lines 156-200) -/

/-- The outcome of the JVMTI symbol lookups made at the top of
`printCallFrame` for one frame's method: `GetMethodName`,
`GetMethodDeclaringClass`, `GetClassSignature`, `GetSourceFileName` and
`GetLineNumberTable` (`none` models a failed call). -/
structure FrameSymbols where
  method_name : Option (List Char)
  declaring_ok : Bool
  class_sig : Option (List Char)
  source : Option (List Char)
  line_table : Option (List LineEntry)
deriving DecidableEq

/-- The four `fprintf` location forms of source lines 184-195. -/
inductive LocationText
  | nativeMethod
  | unknownSource
  | sourceOnly (src : List Char)
  | sourceLine (src : List Char) (line : Int)
deriving DecidableEq

/-- One rendered `at <class>.<method>(<location>)` line. -/
structure RenderedFrame where
  class_text : List Char
  method_text : List Char
  location : LocationText
deriving DecidableEq

/-- The sentinel text used when a symbol lookup failed (`?:` defaults on
source lines 181-182). -/
def unknownText : List Char := ['U', 'n', 'k', 'n', 'o', 'w', 'n']

/-- `printCallFrame`: class name and source file are only available when
`GetMethodDeclaringClass` succeeded; a fetched class signature is passed
through `fixClassSignature`; the location text is chosen by the `if`
chain of source lines 184-195 on the resolved line number and source
file. -/
def printCallFrame (sym : FrameSymbols) (lineno : Int) : RenderedFrame :=
  let class_name : Option (List Char) :=
    if sym.declaring_ok then sym.class_sig.map fixClassSignature else none
  let source_name : Option (List Char) :=
    if sym.declaring_ok then sym.source else none
  let line_number := getLineNumber sym.line_table lineno
  { class_text := class_name.getD unknownText
    method_text := sym.method_name.getD unknownText
    location :=
      if line_number = NATIVE_METHOD_LINENO then LocationText.nativeMethod
      else if source_name = none then LocationText.unknownSource
      else if line_number ≤ 0 then LocationText.sourceOnly (source_name.getD [])
      else LocationText.sourceLine (source_name.getD []) line_number }

/-! The trace coordinator (astack.cpp lines 30-59, 202-261, 374-378)

The globals `x_trace`, `x_frames` and `x_trace_running` become an
`AgentState`; `x_trace.frames` always points at `x_frames`, so the two
are modelled as one list holding the deposited frames. -/

/-- `struct AsyncCallFrame`. -/
structure AsyncCallFrame where
  lineno : Int
  method : Nat
deriving DecidableEq

/-- `struct ThreadTag`: the Thread Identity Record attached to a thread. -/
structure ThreadTag where
  jni : Nat
  thread_id : Nat
deriving DecidableEq

/-- `struct AsyncCallTrace` together with the `x_frames` buffer it points
at: the JNI context plus the deposited frames (`num_frames` is the length
of `frames`). -/
structure AsyncCallTrace where
  jni : Nat
  frames : List AsyncCallFrame
deriving DecidableEq

/-- The process-wide mutable globals of the agent. -/
structure AgentState where
  x_trace : AsyncCallTrace
  x_trace_running : Bool
deriving DecidableEq

/-- The spec's Completion Flag, the boolean signalling "capture finished".
In the source this is the complement of the `x_trace_running` atomic flag,
which signals "capture in progress": the handler's
`x_trace_running.clear()` sets completion, the requester's
`x_trace_running.test_and_set()` clears it. -/
def captureFinished (s : AgentState) : Bool := !s.x_trace_running

/-- The external stack-walker primitive `AsyncGetCallTrace` (spec section
6): fills the caller's buffer with the interrupted thread's frames up to
the requested depth.  `stack` is the stack the interrupted thread has at
the moment the handler runs. -/
def AsyncGetCallTrace (stack : List AsyncCallFrame) (depth : Nat)
    (t : AsyncCallTrace) : AsyncCallTrace :=
  { t with frames := stack.take depth }

/-- `signalHandler` (source lines 374-378): run `AsyncGetCallTrace` on the
shared slot with depth `MAX_FRAMES`, then clear `x_trace_running`. -/
def signalHandler (stack : List AsyncCallFrame) (s : AgentState) : AgentState :=
  { x_trace := AsyncGetCallTrace stack MAX_FRAMES s.x_trace
    x_trace_running := false }

/-- Source lines 238-240 of `dumpThread`: point the slot at `x_frames`
(contents unchanged), store the record's JNI context in the slot, and
`test_and_set` the running flag (clearing the Completion Flag). -/
def captureSetup (tag : ThreadTag) (s : AgentState) : AgentState :=
  { x_trace := { s.x_trace with jni := tag.jni }
    x_trace_running := true }

/-- The synchronization-relevant actions of `dumpThread`, in program
order. -/
inductive Event
  | rawMonitorEnter
  | rawMonitorExit
  | getTag
  | slotAssign (jni : Nat)
  | flagTestAndSet
  | pthreadKill (tid : Nat)
  | handlerRun
  | printDump
  | warn
deriving DecidableEq

/-- The `jvmtiThreadInfo` fields printed in the thread header. -/
structure ThreadInfo where
  name : List Char
  is_daemon : Bool
  priority : Int
deriving DecidableEq

/-- One line written to the client connection. -/
inductive SinkLine
  | header (name : List Char) (daemon : Bool) (priority : Int) (label : String)
  | frame (f : RenderedFrame)
  | blank
deriving DecidableEq

/-- `printThreadDump` (source lines 202-226): the header is written only
when both `GetThreadState` and `GetThreadInfo` succeed (modelled by
`info`); then every frame currently in the shared slot is rendered by
`printCallFrame`; a blank line closes the block. -/
def printThreadDump (info : Option (ThreadInfo × Nat))
    (symbols : Nat → FrameSymbols) (s : AgentState) : List SinkLine :=
  (match info with
    | some (i, state) =>
        [SinkLine.header i.name i.is_daemon i.priority (threadStateEnum state)]
    | none => []) ++
  s.x_trace.frames.map
    (fun f => SinkLine.frame (printCallFrame (symbols f.method) f.lineno)) ++
  [SinkLine.blank]

/-- Result of one capture, as the spec names it. -/
inductive CaptureResult
  | unavailable
  | timeout
  | success (rendered : List SinkLine)
deriving DecidableEq

/-- Everything one `dumpThread` call produces: its result, the final
globals, the ordered events it performed, the sink output, and whether
the timeout warning was logged to stderr. -/
structure DumpOutcome where
  result : CaptureResult
  state : AgentState
  events : List Event
  sink : List SinkLine
  warned : Bool
deriving DecidableEq

/-- `dumpThread` (source lines 228-261), the spec's `captureOneThread`
fused with its rendering.  `tag` is the `GetTag` outcome (`none` for a
failed call or a null tag), `stack` the target thread's stack at handler
time, `handlerCompletes` whether the handler finished within the spin
bound.  The schedule is sequential: the agent has a single listener
thread, and on success the handler runs between `pthread_kill` and the
spin-wait observing the cleared flag (whose `test_and_set` leaves the
flag set again). -/
def dumpThread (tag : Option ThreadTag) (stack : List AsyncCallFrame)
    (handlerCompletes : Bool) (info : Option (ThreadInfo × Nat))
    (symbols : Nat → FrameSymbols) (s : AgentState) : DumpOutcome :=
  match tag with
  | none =>
      { result := CaptureResult.unavailable
        state := s
        events := [Event.rawMonitorEnter, Event.getTag, Event.rawMonitorExit]
        sink := []
        warned := false }
  | some tag =>
      let s1 := captureSetup tag s
      if handlerCompletes then
        let s2 := signalHandler stack s1
        let s3 : AgentState := { s2 with x_trace_running := true }
        let rendered := printThreadDump info symbols s3
        { result := CaptureResult.success rendered
          state := s3
          events := [Event.rawMonitorEnter, Event.getTag,
            Event.slotAssign tag.jni, Event.flagTestAndSet,
            Event.pthreadKill tag.thread_id, Event.handlerRun,
            Event.rawMonitorExit, Event.printDump]
          sink := rendered
          warned := false }
      else
        { result := CaptureResult.timeout
          state := s1
          events := [Event.rawMonitorEnter, Event.getTag,
            Event.slotAssign tag.jni, Event.flagTestAndSet,
            Event.pthreadKill tag.thread_id, Event.rawMonitorExit, Event.warn]
          sink := []
          warned := true }

/-- The per-thread inputs `handleClient` feeds to `dumpThread`. -/
structure ThreadSpec where
  tag : Option ThreadTag
  stack : List AsyncCallFrame
  handlerCompletes : Bool
  info : Option (ThreadInfo × Nat)

/-- `handleClient` (source lines 263-280): dump every enumerated thread in
order, threading the shared globals through, concatenating the sink
output. -/
def handleClient (symbols : Nat → FrameSymbols) :
    List ThreadSpec → AgentState → List SinkLine × AgentState
  | [], s => ([], s)
  | t :: ts, s =>
      let o := dumpThread t.tag t.stack t.handlerCompletes t.info symbols s
      let rest := handleClient symbols ts o.state
      (o.sink ++ rest.1, rest.2)

/-- `a` occurs before `b` in the event list `l`. -/
def eventsOrdered (a b : Event) (l : List Event) : Prop :=
  ∃ l1 l2 l3, l = l1 ++ a :: (l2 ++ b :: l3)

/-! Agent_OnLoad option parsing (astack.cpp lines 469-473)

`sscanf(options, "port=%d", &port)` is modelled per C semantics: the
literal characters must match the input one for one, and the `%d`
conversion skips leading whitespace, accepts an optional sign and then a
nonempty run of decimal digits, leaving any trailing characters
unconsumed.  The parsed value is kept as an unbounded `Int` (C integer
overflow on absurdly long digit runs is not modelled). -/

/-- C `isspace` on the default locale. -/
def isCSpace (c : Char) : Bool :=
  (c == ' ') || (c == '\t') || (c == '\n') || (c == '\r') ||
    (c == Char.ofNat 11) || (c == Char.ofNat 12)

/-- Read a nonempty run of decimal digits from the front of `l`; return
its value and the rest. -/
def parseDigits (l : List Char) : Option (Nat × List Char) :=
  match l.takeWhile Char.isDigit with
  | [] => none
  | ds => some (ds.foldl (fun a c => a * 10 + (c.toNat - 48)) 0,
      l.dropWhile Char.isDigit)

/-- The `%d` conversion: skip whitespace, optional sign, digits. -/
def scanDecInt (l : List Char) : Option (Int × List Char) :=
  match l.dropWhile isCSpace with
  | [] => none
  | c :: r =>
      if c = '+' then (parseDigits r).map (fun p => ((p.1 : Int), p.2))
      else if c = '-' then (parseDigits r).map (fun p => (-(p.1 : Int), p.2))
      else (parseDigits (c :: r)).map (fun p => ((p.1 : Int), p.2))

/-- Match the format string's literal characters against the input. -/
def matchLiteral : List Char → List Char → Option (List Char)
  | [], s => some s
  | _ :: _, [] => none
  | c :: p, x :: s => if x = c then matchLiteral p s else none

/-- `sscanf(s, "port=%d", &port)`, returning the parsed port when the
conversion count is 1. -/
def sscanfPort (s : List Char) : Option Int :=
  match matchLiteral ['p', 'o', 'r', 't', '='] s with
  | none => none
  | some rest => (scanDecInt rest).map Prod.fst

/-- The option check of `Agent_OnLoad` (source line 470): `none` means the
agent refuses to load (`JNI_ERR`), `some port` that the port was
configured. -/
def Agent_OnLoad_parse (options : Option (List Char)) : Option Int :=
  match options with
  | none => none
  | some s => sscanfPort s

/-- Declarative shape of an accepted options string: the literal
characters `port=` followed by whitespace, an optional sign, a nonempty
digit run, and arbitrary trailing characters. -/
def portOptionShape (s : List Char) : Prop :=
  ∃ ws sgn ds rest,
    s = ['p', 'o', 'r', 't', '='] ++ ws ++ sgn ++ ds ++ rest ∧
    (∀ c ∈ ws, isCSpace c = true) ∧
    (sgn = [] ∨ sgn = ['+'] ∨ sgn = ['-']) ∧
    ds ≠ [] ∧ (∀ c ∈ ds, c.isDigit = true)

/-! Claim C4: thread-state label decoding -/

/-- C4 counterexample: on the raw bitmask `0x401` (alive, blocked acquiring
a monitor), `threadStateEnum` yields `BLOCKED (on object monitor)`, not the
bare label `BLOCKED` the claim's state table prescribes for a thread
blocked acquiring a lock. -/
theorem C4_counterexample :
    hasState 0x401 JVMTI_THREAD_STATE_ALIVE = true ∧
    hasState 0x401 JVMTI_THREAD_STATE_BLOCKED_ON_MONITOR_ENTER = true ∧
    hasState 0x401 JVMTI_THREAD_STATE_RUNNABLE = false ∧
    hasState 0x401 JVMTI_THREAD_STATE_TERMINATED = false ∧
    threadStateEnum 0x401 = "BLOCKED (on object monitor)" ∧
    threadStateEnum 0x401 ≠ "BLOCKED" := by
  refine ⟨by decide, by decide, by decide, by decide, by decide, by decide⟩

/-- C4 (amended): for every raw thread-state bitmask, the decoded label
follows the claim's fixed priority order with first match winning —
not-yet-started (neither alive nor terminated bit) yields `NEW`;
terminated yields `TERMINATED`; then, for alive states, runnable yields
`RUNNABLE`; blocked acquiring a lock yields `BLOCKED (on object monitor)`
(the amended label); indefinite waiting yields the `WAITING` variants;
timed waiting yields the `TIMED_WAITING` variants; any other alive state
yields `UNKNOWN`. -/
theorem C4_stateLabelAmended (state : Nat) :
    threadStateEnum state = specStateLabelAmended state := by
  unfold threadStateEnum specStateLabelAmended
  cases hA : hasState state JVMTI_THREAD_STATE_ALIVE
  · cases hT : hasState state JVMTI_THREAD_STATE_TERMINATED <;> simp [hA, hT]
  · cases hR : hasState state JVMTI_THREAD_STATE_RUNNABLE <;>
    cases hB : hasState state JVMTI_THREAD_STATE_BLOCKED_ON_MONITOR_ENTER <;>
    cases hWI : hasState state JVMTI_THREAD_STATE_WAITING_INDEFINITELY <;>
    cases hWT : hasState state JVMTI_THREAD_STATE_WAITING_WITH_TIMEOUT <;>
    cases hOW : hasState state JVMTI_THREAD_STATE_IN_OBJECT_WAIT <;>
    cases hP : hasState state JVMTI_THREAD_STATE_PARKED <;>
    cases hS : hasState state JVMTI_THREAD_STATE_SLEEPING <;>
    simp [hA, hR, hB, hWI, hWT, hOW, hP, hS]

/-! Claim C7: class-name normalization -/

/-- The separator rewrite of source lines 77-81. -/
def sepRewrite (s : List Char) : List Char :=
  s.map (fun c => if c = '/' then '.' else c)

/-- C7 counterexample: the name `LLfoo;;` normalizes to `Lfoo;`, an
already-normalized name on which normalization is not the identity —
applying it again strips the residual marker pair down to `foo`.  So
class-name normalization is not idempotent on all already-normalized
names. -/
theorem C7_counterexample :
    fixClassSignature ['L', 'L', 'f', 'o', 'o', ';', ';'] =
      ['L', 'f', 'o', 'o', ';'] ∧
    fixClassSignature (fixClassSignature ['L', 'L', 'f', 'o', 'o', ';', ';']) ≠
      fixClassSignature ['L', 'L', 'f', 'o', 'o', ';', ';'] := by
  refine ⟨by decide, by decide⟩

/-- C7 (amended): normalization strips one leading/trailing wrapper-marker
pair when both are present and the name is at least 3 characters long,
rewriting internal `/` separators to `.` in the stripped interior; it is a
no-op on every name not matching the wrapper-marker pattern or shorter
than 3 characters; and it is idempotent on every normalized name that
does not itself still match the wrapper-marker pattern. -/
theorem C7_fixClassSignature (s : List Char) :
    (¬ wrapperMarked s → fixClassSignature s = s) ∧
    (wrapperMarked s → fixClassSignature s = sepRewrite (s.dropLast.drop 1)) ∧
    (¬ wrapperMarked (fixClassSignature s) →
      fixClassSignature (fixClassSignature s) = fixClassSignature s) := by
  have hcond : ∀ t : List Char,
      ¬ wrapperMarked t → fixClassSignature t = t := by
    intro t ht
    unfold fixClassSignature
    rw [if_pos]
    unfold wrapperMarked at ht
    push_neg at ht
    by_cases h1 : t.length ≤ 2
    · exact Or.inl h1
    · by_cases h2 : t.head? = some 'L'
      · exact Or.inr (Or.inr (ht (by omega) h2))
      · exact Or.inr (Or.inl h2)
  refine ⟨hcond s, ?_, fun h => hcond _ h⟩
  intro hm
  obtain ⟨hl, hh, hg⟩ := hm
  unfold fixClassSignature
  rw [if_neg (by push_neg; exact ⟨by omega, hh, hg⟩)]
  unfold sepRewrite
  congr 1
  rw [List.dropLast_eq_take, List.drop_take]
  congr 1

/-- C7 witness: concrete applications of `C7_fixClassSignature` — the
unmarked name `a/b` is left untouched (separators included), the marked
name `La/b;` is stripped and rewritten, and normalization is idempotent
on the result. -/
theorem C7_witness :
    fixClassSignature ['a', '/', 'b'] = ['a', '/', 'b'] ∧
    fixClassSignature ['L', 'a', '/', 'b', ';'] = ['a', '.', 'b'] ∧
    fixClassSignature (fixClassSignature ['L', 'a', '/', 'b', ';']) =
      fixClassSignature ['L', 'a', '/', 'b', ';'] := by
  refine ⟨(C7_fixClassSignature ['a', '/', 'b']).1 (by decide), ?_,
    (C7_fixClassSignature ['L', 'a', '/', 'b', ';']).2.2 (by decide)⟩
  exact ((C7_fixClassSignature ['L', 'a', '/', 'b', ';']).2.1
    (by decide)).trans (by decide)

/-! Lemmas about the getLineNumber scan loop -/

/-- The loop's result line is `-1` (unset), the initial previous line, or a
line number carried by one of the scanned entries. -/
lemma lineScan_fst_cases (target : Int) :
    ∀ (l : List LineEntry) (last pl : Int),
      (lineScan target l last pl).1 = -1 ∨ (lineScan target l last pl).1 = pl ∨
        (lineScan target l last pl).1 ∈ l.map (fun e => e.line_number) := by
  intro l
  induction l with
  | nil => intro last pl; left; rfl
  | cons e rest ih =>
      intro last pl
      rw [lineScan]
      split
      · right; left; rfl
      · rcases ih e.start_location e.line_number with h | h | h
        · exact Or.inl h
        · refine Or.inr (Or.inr ?_)
          rw [List.map_cons, h]
          exact List.mem_cons_self _ _
        · refine Or.inr (Or.inr ?_)
          rw [List.map_cons]
          exact List.mem_cons_of_mem _ h

/-- When every scanned entry starts at or before the target, the loop
never breaks: the line stays `-1` and `last` ends at the final entry's
start location. -/
lemma lineScan_all_le (target : Int) :
    ∀ (l : List LineEntry) (last pl : Int),
      (∀ e ∈ l, e.start_location ≤ target) →
      lineScan target l last pl =
        (-1, (l.map (fun e => e.start_location)).getLastD last) := by
  intro l
  induction l with
  | nil => intro last pl _; rfl
  | cons e rest ih =>
      intro last pl h
      rw [lineScan, if_neg, List.map_cons, List.getLastD_cons]
      · exact ih e.start_location e.line_number
          (fun f hf => h f (List.mem_cons_of_mem _ hf))
      · rintro ⟨h1, _⟩
        exact absurd h1 (not_lt.mpr (h e (List.mem_cons_self _ _)))

/-- When the entries of `l1` all start at or before the target, the last
of them (or the initial `last`) is still at or before the target, and `e`
starts strictly after it, the loop breaks exactly at `e`, returning the
line and start of the entry preceding `e`. -/
lemma lineScan_break (target : Int) :
    ∀ (l1 : List LineEntry) (e : LineEntry) (l2 : List LineEntry) (last pl : Int),
      (∀ f ∈ l1, f.start_location ≤ target) →
      target < e.start_location →
      (l1.map (fun f => f.start_location)).getLastD last ≤ target →
      lineScan target (l1 ++ e :: l2) last pl =
        ((l1.map (fun f => f.line_number)).getLastD pl,
          (l1.map (fun f => f.start_location)).getLastD last) := by
  intro l1
  induction l1 with
  | nil =>
      intro e l2 last pl _ h2 h3
      rw [List.map_nil, List.getLastD_nil] at h3 ⊢
      rw [List.map_nil, List.getLastD_nil, List.nil_append, lineScan,
        if_pos ⟨h2, h3⟩]
  | cons f l1 ih =>
      intro e l2 last pl h1 h2 h3
      rw [List.map_cons, List.getLastD_cons] at h3
      rw [List.map_cons, List.getLastD_cons, List.map_cons, List.getLastD_cons,
        List.cons_append, lineScan, if_neg]
      · exact ih e l2 f.start_location f.line_number
          (fun g hg => h1 g (List.mem_cons_of_mem _ hg)) h2 h3
      · rintro ⟨hlt, _⟩
        exact absurd hlt (not_lt.mpr (h1 f (List.mem_cons_self _ _)))

/-- The defaulted last element of a nonempty list is a member. -/
lemma getLastD_mem {α : Type} :
    ∀ (a : α) (l : List α) (d : α), (a :: l).getLastD d ∈ a :: l := by
  intro a l
  induction l generalizing a with
  | nil =>
      intro d
      rw [List.getLastD_cons, List.getLastD_nil]
      exact List.mem_cons_self _ _
  | cons b l ih =>
      intro d
      rw [List.getLastD_cons]
      exact List.mem_cons_of_mem _ (ih b a)

/-- Under a strictly increasing measure, every member is bounded by the
defaulted last element. -/
lemma mem_le_getLastD {α : Type} (g : α → Int) :
    ∀ (l : List α) (d : α),
      List.Pairwise (fun x y => g x < g y) l →
      ∀ e ∈ l, g e ≤ g (l.getLastD d) := by
  intro l
  induction l with
  | nil => intro d _ e he; exact absurd he (List.not_mem_nil e)
  | cons f rest ih =>
      intro d hp e he
      rw [List.getLastD_cons]
      rcases List.mem_cons.mp he with rfl | he'
      · cases rest with
        | nil => rw [List.getLastD_nil]
        | cons b l =>
            exact le_of_lt ((List.pairwise_cons.mp hp).1 _ (getLastD_mem b l e))
      · exact ih f (List.pairwise_cons.mp hp).2 e he'

/-- `getLastD` commutes with `map` when the default is mapped too. -/
lemma map_getLastD {α β : Type} (f : α → β) :
    ∀ (l : List α) (d : α), (l.map f).getLastD (f d) = f (l.getLastD d) := by
  intro l
  induction l with
  | nil => intro d; rfl
  | cons a l ih =>
      intro d
      rw [List.map_cons, List.getLastD_cons, List.getLastD_cons, ih]

/-! Unfolding equations for `getLineNumber`, one per table shape. -/

lemma getLineNumber_neg (tbl : Option (List LineEntry)) (target : Int)
    (h : target < 0) : getLineNumber tbl target = target := by
  rw [getLineNumber.eq_def, if_pos h]

lemma getLineNumber_none (target : Int) (h : 0 ≤ target) :
    getLineNumber none target = -1 := by
  rw [getLineNumber.eq_def, if_neg (not_lt.mpr h)]

lemma getLineNumber_nil (target : Int) (h : 0 ≤ target) :
    getLineNumber (some []) target = -1 := by
  rw [getLineNumber.eq_def, if_neg (not_lt.mpr h)]

lemma getLineNumber_single (e : LineEntry) (target : Int) (h : 0 ≤ target) :
    getLineNumber (some [e]) target = e.line_number := by
  rw [getLineNumber.eq_def, if_neg (not_lt.mpr h)]

lemma getLineNumber_cons_cons (e0 e1 : LineEntry) (rest : List LineEntry)
    (target : Int) (h : 0 ≤ target) :
    getLineNumber (some (e0 :: e1 :: rest)) target =
      if (lineScan target (e1 :: rest) e0.start_location e0.line_number).1 = -1 ∧
          (lineScan target (e1 :: rest) e0.start_location e0.line_number).2 ≤ target
      then ((e1 :: rest).getLastD e1).line_number
      else (lineScan target (e1 :: rest) e0.start_location e0.line_number).1 := by
  rw [getLineNumber.eq_def, if_neg (not_lt.mpr h)]

/-! Claim C5: the native-method sentinel -/

/-- C5 counterexample: the location `-1` is negative, yet `getLineNumber`
returns `-1` — the location itself — and not the fixed native-method
sentinel `-3`; so a negative location does not always map to the native
sentinel. -/
theorem C5_counterexample :
    ((-1 : Int) < 0) ∧
    getLineNumber (some [{ start_location := 0, line_number := 7 }]) (-1) = -1 ∧
    getLineNumber (some [{ start_location := 0, line_number := 7 }]) (-1) ≠
      NATIVE_METHOD_LINENO := by
  refine ⟨by decide, by decide, by decide⟩

/-- C5 (amended): for every negative location `getLineNumber` returns the
location value itself — hence it returns the native-method sentinel for a
negative location exactly when the location already equals the sentinel
`-3` — and for a nonnegative location it never returns the sentinel, the
table's line numbers (sourced from unsigned class-file entries) being
nonnegative. -/
theorem C5_nativeSentinel (tbl : Option (List LineEntry)) (target : Int)
    (hlines : ∀ x ∈ tableLines tbl, 0 ≤ x) :
    (target < 0 → getLineNumber tbl target = target) ∧
    (target < 0 → (getLineNumber tbl target = NATIVE_METHOD_LINENO ↔
      target = NATIVE_METHOD_LINENO)) ∧
    (0 ≤ target → getLineNumber tbl target ≠ NATIVE_METHOD_LINENO) := by
  have hneg : target < 0 → getLineNumber tbl target = target :=
    getLineNumber_neg tbl target
  refine ⟨hneg, fun h => by rw [hneg h], ?_⟩
  intro h0
  rcases tbl with _ | l
  · rw [getLineNumber_none target h0]; decide
  · rcases l with _ | ⟨e0, l⟩
    · rw [getLineNumber_nil target h0]; decide
    · rcases l with _ | ⟨e1, rest⟩
      · have he : (0 : Int) ≤ e0.line_number :=
          hlines _ (List.mem_map_of_mem _ (List.mem_cons_self _ _))
        rw [getLineNumber_single e0 target h0]
        unfold NATIVE_METHOD_LINENO
        omega
      · rw [getLineNumber_cons_cons e0 e1 rest target h0]
        by_cases hif :
          (lineScan target (e1 :: rest) e0.start_location e0.line_number).1 = -1 ∧
            (lineScan target (e1 :: rest) e0.start_location e0.line_number).2 ≤ target
        · rw [if_pos hif]
          have hmem : (e1 :: rest).getLastD e1 ∈ e0 :: e1 :: rest :=
            List.mem_cons_of_mem _ (getLastD_mem e1 rest e1)
          have := hlines _ (List.mem_map_of_mem _ hmem)
          unfold NATIVE_METHOD_LINENO
          omega
        · rw [if_neg hif]
          rcases lineScan_fst_cases target (e1 :: rest) e0.start_location
              e0.line_number with h | h | h
          · rw [h]; decide
          · have h0' : (0 : Int) ≤ e0.line_number :=
              hlines _ (List.mem_map_of_mem _ (List.mem_cons_self _ _))
            rw [h]
            unfold NATIVE_METHOD_LINENO
            omega
          · obtain ⟨f, hf, hfe⟩ := List.mem_map.mp h
            have : (0 : Int) ≤ f.line_number :=
              hlines _ (List.mem_map_of_mem _ (List.mem_cons_of_mem _ hf))
            rw [← hfe]
            unfold NATIVE_METHOD_LINENO
            omega

/-- C5 witness: concrete application of `C5_nativeSentinel` — location
`-1` is echoed back, and a nonnegative location never yields `-3`. -/
theorem C5_witness :
    getLineNumber (some [{ start_location := 0, line_number := 7 }]) (-1) = -1 ∧
    getLineNumber (some [{ start_location := 0, line_number := 7 }]) 5 ≠
      NATIVE_METHOD_LINENO :=
  ⟨(C5_nativeSentinel (some [{ start_location := 0, line_number := 7 }]) (-1)
      (by decide)).1 (by decide),
    (C5_nativeSentinel (some [{ start_location := 0, line_number := 7 }]) 5
      (by decide)).2.2 (by decide)⟩

/-! Claim C6: line-number table lookup -/

/-- C6: for a nonnegative location, a one-entry table always yields that
entry's line; in a table of two or more entries with strictly increasing
start locations (and the nonnegative line numbers of class-file tables),
a location strictly between the starts of two adjacent entries yields the
earlier entry's line, and a location at or past the last entry's start
yields the last entry's line. -/
theorem C6_tableLookup (target : Int) (h0 : 0 ≤ target) :
    (∀ e : LineEntry, getLineNumber (some [e]) target = e.line_number) ∧
    (∀ (l1 : List LineEntry) (a b : LineEntry) (l2 : List LineEntry),
      List.Pairwise (fun x y => x.start_location < y.start_location)
        (l1 ++ a :: b :: l2) →
      (∀ x ∈ tableLines (some (l1 ++ a :: b :: l2)), 0 ≤ x) →
      a.start_location < target → target < b.start_location →
      getLineNumber (some (l1 ++ a :: b :: l2)) target = a.line_number) ∧
    (∀ (e0 e1 : LineEntry) (rest : List LineEntry),
      List.Pairwise (fun x y => x.start_location < y.start_location)
        (e0 :: e1 :: rest) →
      ((e1 :: rest).getLastD e1).start_location ≤ target →
      getLineNumber (some (e0 :: e1 :: rest)) target =
        ((e1 :: rest).getLastD e1).line_number) := by
  refine ⟨fun e => getLineNumber_single e target h0, ?_, ?_⟩
  · intro l1 a b l2 hpair hlines ha hb
    have hline_a : (0 : Int) ≤ a.line_number := by
      refine hlines _ (List.mem_map_of_mem _ ?_)
      exact List.mem_append_right _ (List.mem_cons_self _ _)
    rcases l1 with _ | ⟨f, l1⟩
    · rw [List.nil_append] at *
      rw [getLineNumber_cons_cons a b l2 target h0]
      have hbreak := lineScan_break target [] b l2 a.start_location
        a.line_number (by intro g hg; exact absurd hg (List.not_mem_nil g)) hb
        (by rw [List.map_nil, List.getLastD_nil]; exact le_of_lt ha)
      simp only [List.map_nil, List.getLastD_nil, List.nil_append] at hbreak
      rw [hbreak, if_neg]
      rintro ⟨h1, _⟩
      omega
    · have hfront := (List.pairwise_append.mp hpair).2.2
      rcases hsh : l1 ++ a :: b :: l2 with _ | ⟨e1, rest⟩
      · exact absurd hsh (by simp)
      · rw [List.cons_append, hsh, getLineNumber_cons_cons f e1 rest target h0,
          ← hsh]
        have hall : ∀ g ∈ l1 ++ [a], g.start_location ≤ target := by
          intro g hg
          rcases List.mem_append.mp hg with hg' | hg'
          · have : g.start_location < a.start_location :=
              hfront g (List.mem_cons_of_mem _ hg')
                a (List.mem_cons_self _ _)
            omega
          · rw [List.mem_singleton.mp hg']
            exact le_of_lt ha
        have hfst : ((l1 ++ [a]).map (fun f => f.line_number)).getLastD
            f.line_number = a.line_number := by
          rw [List.map_append]
          exact List.getLastD_concat _ _ _
        have hsnd : ((l1 ++ [a]).map (fun f => f.start_location)).getLastD
            f.start_location = a.start_location := by
          rw [List.map_append]
          exact List.getLastD_concat _ _ _
        have hbreak := lineScan_break target (l1 ++ [a]) b l2 f.start_location
          f.line_number hall hb (by rw [hsnd]; exact le_of_lt ha)
        rw [hfst, hsnd] at hbreak
        rw [show (l1 ++ [a]) ++ b :: l2 = l1 ++ a :: b :: l2 by simp] at hbreak
        rw [hbreak, if_neg]
        rintro ⟨h1, _⟩
        omega
  · intro e0 e1 rest hpair hlast
    have hall : ∀ e ∈ e1 :: rest, e.start_location ≤ target := by
      intro e he
      exact le_trans
        (mem_le_getLastD (fun x => x.start_location) (e1 :: rest) e1
          (List.pairwise_cons.mp hpair).2 e he) hlast
    rw [getLineNumber_cons_cons e0 e1 rest target h0,
      lineScan_all_le target (e1 :: rest) e0.start_location e0.line_number hall,
      if_pos]
    refine ⟨rfl, ?_⟩
    have hdef : (e1 :: rest).getLastD e0 = (e1 :: rest).getLastD e1 := by
      rw [List.getLastD_cons, List.getLastD_cons]
    calc ((e1 :: rest).map (fun e => e.start_location)).getLastD
          e0.start_location
        = ((e1 :: rest).getLastD e0).start_location :=
          map_getLastD (fun e => e.start_location) (e1 :: rest) e0
      _ = ((e1 :: rest).getLastD e1).start_location := by rw [hdef]
      _ ≤ target := hlast

/-- C6 witness: concrete applications of `C6_tableLookup` on the
three-entry table `(0 ↦ 10, 5 ↦ 20, 9 ↦ 30)`. -/
theorem C6_witness :
    getLineNumber (some [⟨0, 10⟩, ⟨5, 20⟩, ⟨9, 30⟩]) 7 = 20 ∧
    getLineNumber (some [⟨0, 10⟩, ⟨5, 20⟩, ⟨9, 30⟩]) 12 = 30 ∧
    getLineNumber (some [⟨0, 10⟩]) 12 = 10 := by
  refine ⟨?_, ?_, (C6_tableLookup 12 (by decide)).1 ⟨0, 10⟩⟩
  · exact (C6_tableLookup 7 (by decide)).2.1 [⟨0, 10⟩] ⟨5, 20⟩ ⟨9, 30⟩ []
      (by decide) (by decide) (by decide) (by decide)
  · have h := (C6_tableLookup 12 (by decide)).2.2 ⟨0, 10⟩ ⟨5, 20⟩ [⟨9, 30⟩]
      (by decide) (by decide)
    rw [h]
    decide

/-! Claim C9: frame rendering -/

/-- C9: every captured frame is rendered in exactly one of the four line
forms, selected by the resolver outcome — native sentinel, no source
file, unresolvable line, line present — and any symbol-lookup failure
degrades the class or method text to `Unknown` instead of aborting
(`printCallFrame` is total).  A missing declaring class suppresses both
the class name and the source file. -/
theorem C9_frameForms (sym : FrameSymbols) (lineno : Int) :
    (sym.method_name = none →
      (printCallFrame sym lineno).method_text = unknownText) ∧
    (∀ m, sym.method_name = some m →
      (printCallFrame sym lineno).method_text = m) ∧
    (sym.declaring_ok = false →
      (printCallFrame sym lineno).class_text = unknownText) ∧
    (sym.class_sig = none →
      (printCallFrame sym lineno).class_text = unknownText) ∧
    (∀ c, sym.declaring_ok = true → sym.class_sig = some c →
      (printCallFrame sym lineno).class_text = fixClassSignature c) ∧
    (getLineNumber sym.line_table lineno = NATIVE_METHOD_LINENO →
      (printCallFrame sym lineno).location = LocationText.nativeMethod) ∧
    (getLineNumber sym.line_table lineno ≠ NATIVE_METHOD_LINENO →
      sym.declaring_ok = false →
      (printCallFrame sym lineno).location = LocationText.unknownSource) ∧
    (getLineNumber sym.line_table lineno ≠ NATIVE_METHOD_LINENO →
      sym.declaring_ok = true → sym.source = none →
      (printCallFrame sym lineno).location = LocationText.unknownSource) ∧
    (∀ f, getLineNumber sym.line_table lineno ≠ NATIVE_METHOD_LINENO →
      sym.declaring_ok = true → sym.source = some f →
      getLineNumber sym.line_table lineno ≤ 0 →
      (printCallFrame sym lineno).location = LocationText.sourceOnly f) ∧
    (∀ f, getLineNumber sym.line_table lineno ≠ NATIVE_METHOD_LINENO →
      sym.declaring_ok = true → sym.source = some f →
      0 < getLineNumber sym.line_table lineno →
      (printCallFrame sym lineno).location =
        LocationText.sourceLine f (getLineNumber sym.line_table lineno)) := by
  refine ⟨?_, ?_, ?_, ?_, ?_, ?_, ?_, ?_, ?_, ?_⟩
  · intro h; simp [printCallFrame, h]
  · intro m h; simp [printCallFrame, h]
  · intro h; simp [printCallFrame, h]
  · intro h; simp [printCallFrame, h]
  · intro c h1 h2; simp [printCallFrame, h1, h2]
  · intro h; simp [printCallFrame, h]
  · intro h1 h2; simp [printCallFrame, h1, h2]
  · intro h1 h2 h3; simp [printCallFrame, h1, h2, h3]
  · intro f h1 h2 h3 h4; simp [printCallFrame, h1, h2, h3, h4]
  · intro f h1 h2 h3 h4
    simp [printCallFrame, h1, h2, h3, not_le.mpr h4]

/-- Concrete frame-symbol record used by the C9 witness: failed method
lookup, successful class/source lookup, one-entry line table. -/
def symW : FrameSymbols :=
  { method_name := none
    declaring_ok := true
    class_sig := some ['L', 'f', ';']
    source := some ['F']
    line_table := some [{ start_location := 0, line_number := 5 }] }

/-- C9 witness: on `symW` the method text degrades to `Unknown` while the
location renders as `(<sourceFile>:<line>)`. -/
theorem C9_witness :
    (printCallFrame symW 0).method_text = unknownText ∧
    (printCallFrame symW 0).location = LocationText.sourceLine ['F'] 5 := by
  constructor
  · exact (C9_frameForms symW 0).1 rfl
  · have h := (C9_frameForms symW 0).2.2.2.2.2.2.2.2.2 ['F']
      (by decide) rfl rfl (by decide)
    exact h.trans (by decide)

/-! Claims C1, C2, C3, C8: the capture protocol -/

/-- Frame symbols standing for all-failed lookups, used by the concrete
counterexample runs. -/
def symNone : FrameSymbols :=
  { method_name := none
    declaring_ok := false
    class_sig := none
    source := none
    line_table := none }

/-- An initial agent state with an empty slot. -/
def s0 : AgentState :=
  { x_trace := { jni := 0, frames := [] }, x_trace_running := false }

/-- C1 counterexample: in a successful `dumpThread` run the lock-release
event (`RawMonitorExit`, index 6) comes strictly before the event that
reads and converts the slot's frames (`printThreadDump`, index 7) — the
code does not copy and convert the frames before releasing the
process-wide serializing lock, refuting the claimed ordering. -/
theorem C1_counterexample :
    ((dumpThread (some { jni := 0, thread_id := 0 }) [] true none
        (fun _ => symNone) s0).events[6]? = some Event.rawMonitorExit) ∧
    ((dumpThread (some { jni := 0, thread_id := 0 }) [] true none
        (fun _ => symNone) s0).events[7]? = some Event.printDump) ∧
    ¬ (7 : Nat) < 6 := by
  refine ⟨by decide, by decide, by decide⟩

/-- C1 (amended): on a successful capture `dumpThread` releases the
serializing lock and only then renders the shared Capture Slot through
the Location Resolver — no request-local copy is made before release.
The returned frames nevertheless correspond to the issuing request: the
slot read by the rendering step holds exactly the stack captured from
this request's target (truncated to `MAX_FRAMES`), captures being issued
one at a time by the agent's single listener thread. -/
theorem C1_successRendersOwnCapture (tag : ThreadTag)
    (stack : List AsyncCallFrame) (info : Option (ThreadInfo × Nat))
    (symbols : Nat → FrameSymbols) (s : AgentState) :
    (dumpThread (some tag) stack true info symbols s).result =
      CaptureResult.success
        ((dumpThread (some tag) stack true info symbols s).sink) ∧
    eventsOrdered Event.rawMonitorExit Event.printDump
      (dumpThread (some tag) stack true info symbols s).events ∧
    (dumpThread (some tag) stack true info symbols s).state.x_trace.frames =
      stack.take MAX_FRAMES ∧
    (dumpThread (some tag) stack true info symbols s).sink =
      printThreadDump info symbols
        (dumpThread (some tag) stack true info symbols s).state := by
  refine ⟨rfl, ?_, rfl, rfl⟩
  exact ⟨[Event.rawMonitorEnter, Event.getTag, Event.slotAssign tag.jni,
    Event.flagTestAndSet, Event.pthreadKill tag.thread_id, Event.handlerRun],
    [], [], rfl⟩

/-- C2: the Completion Flag — the "capture finished" signal, realized in
the source as the complement of the `x_trace_running` atomic flag — is
set by the interrupted thread's handler (`x_trace_running.clear()` at the
end of `signalHandler`), and is cleared by the requester before it
triggers a new capture (`x_trace_running.test_and_set()` on source line
240, strictly before the `pthread_kill` on line 242, in both the success
and the timeout schedule). -/
theorem C2_completionFlag (stack : List AsyncCallFrame) (s s2 : AgentState)
    (tag : ThreadTag) (hc : Bool) (info : Option (ThreadInfo × Nat))
    (symbols : Nat → FrameSymbols) :
    captureFinished (signalHandler stack s) = true ∧
    captureFinished (captureSetup tag s2) = false ∧
    eventsOrdered Event.flagTestAndSet (Event.pthreadKill tag.thread_id)
      (dumpThread (some tag) stack hc info symbols s2).events := by
  refine ⟨rfl, rfl, ?_⟩
  cases hc
  · exact ⟨[Event.rawMonitorEnter, Event.getTag, Event.slotAssign tag.jni],
      [], [Event.rawMonitorExit, Event.warn], rfl⟩
  · exact ⟨[Event.rawMonitorEnter, Event.getTag, Event.slotAssign tag.jni],
      [], [Event.handlerRun, Event.rawMonitorExit, Event.printDump], rfl⟩

/-- C3 counterexample: a thread whose capture returns `Unavailable` (no
Thread Identity Record) produces no sink output at all — in particular no
thread header — even though its `GetThreadState`/`GetThreadInfo` data is
available; the header is not written before `captureOneThread` and is not
emitted for a thread whose capture fails. -/
theorem C3_counterexample :
    (dumpThread none [] true
        (some ({ name := ['m'], is_daemon := false, priority := 5 }, 4))
        (fun _ => symNone) s0).result = CaptureResult.unavailable ∧
    (dumpThread none [] true
        (some ({ name := ['m'], is_daemon := false, priority := 5 }, 4))
        (fun _ => symNone) s0).sink = [] := by
  refine ⟨rfl, rfl⟩

/-- C3 (amended): nothing is written to the sink for a thread until its
capture has succeeded.  On `Unavailable` nothing at all is written; on
`Timeout` nothing is written to the sink and the stderr warning is
logged; on success the header (name, daemon flag, priority, decoded state
label) is written first, followed by the frame lines and a blank line —
the header too is emitted only after the capture.  A failed thread does
not stop the dump: `handleClient` always continues with the remaining
threads. -/
theorem C3_headerAfterCapture (stack : List AsyncCallFrame) (hc : Bool)
    (tag : ThreadTag) (i : ThreadInfo) (st : Nat)
    (info : Option (ThreadInfo × Nat)) (symbols : Nat → FrameSymbols)
    (s : AgentState) (t : ThreadSpec) (ts : List ThreadSpec) :
    ((dumpThread none stack hc info symbols s).sink = [] ∧
      (dumpThread none stack hc info symbols s).warned = false) ∧
    ((dumpThread (some tag) stack false info symbols s).sink = [] ∧
      (dumpThread (some tag) stack false info symbols s).warned = true) ∧
    ((dumpThread (some tag) stack true (some (i, st)) symbols s).sink =
      SinkLine.header i.name i.is_daemon i.priority (threadStateEnum st) ::
        ((stack.take MAX_FRAMES).map
          (fun f => SinkLine.frame (printCallFrame (symbols f.method) f.lineno))
          ++ [SinkLine.blank])) ∧
    (handleClient symbols (t :: ts) s).1 =
      (dumpThread t.tag t.stack t.handlerCompletes t.info symbols s).sink ++
        (handleClient symbols ts
          (dumpThread t.tag t.stack t.handlerCompletes t.info symbols s).state).1
    := by
  exact ⟨⟨rfl, rfl⟩, ⟨rfl, rfl⟩, rfl, rfl⟩

/-- C8: for a handle with no registered Thread Identity Record (a failed
`GetTag` or a null tag), `dumpThread` returns `Unavailable`, leaves the
globals — Capture Slot and Completion Flag — exactly as they were, and
its event trace is enter-lock, read-tag, release-lock: no signal is
delivered, the flag is never touched, and the slot is never assigned. -/
theorem C8_unavailableUntouched (stack : List AsyncCallFrame) (hc : Bool)
    (info : Option (ThreadInfo × Nat)) (symbols : Nat → FrameSymbols)
    (s : AgentState) :
    (dumpThread none stack hc info symbols s).result =
      CaptureResult.unavailable ∧
    (dumpThread none stack hc info symbols s).state = s ∧
    (dumpThread none stack hc info symbols s).events =
      [Event.rawMonitorEnter, Event.getTag, Event.rawMonitorExit] ∧
    (∀ tid, Event.pthreadKill tid ∉
      (dumpThread none stack hc info symbols s).events) ∧
    Event.flagTestAndSet ∉ (dumpThread none stack hc info symbols s).events ∧
    (∀ jni, Event.slotAssign jni ∉
      (dumpThread none stack hc info symbols s).events) := by
  refine ⟨rfl, rfl, rfl, ?_, ?_, ?_⟩ <;> simp [dumpThread]

/-! Claim C10: option parsing in Agent_OnLoad -/

lemma matchLiteral_eq_some (p : List Char) :
    ∀ (s r : List Char), matchLiteral p s = some r ↔ s = p ++ r := by
  induction p with
  | nil => intro s r; simp [matchLiteral]
  | cons c p ih =>
      intro s r
      cases s with
      | nil => simp [matchLiteral]
      | cons x t =>
          by_cases hx : x = c
          · subst hx
            simp [matchLiteral, ih]
          · simp [matchLiteral, hx]

lemma dropWhile_append_of_all {p : Char → Bool} :
    ∀ (ws t : List Char), (∀ c ∈ ws, p c = true) →
      (ws ++ t).dropWhile p = t.dropWhile p := by
  intro ws
  induction ws with
  | nil => intro t _; rfl
  | cons c ws ih =>
      intro t h
      rw [List.cons_append, List.dropWhile_cons,
        if_pos (h c (List.mem_cons_self _ _))]
      exact ih t (fun d hd => h d (List.mem_cons_of_mem _ hd))

/-- A decimal digit is not a sign character and not whitespace. -/
lemma isDigit_not_special {c : Char} (h : c.isDigit = true) :
    c ≠ '+' ∧ c ≠ '-' ∧ isCSpace c = false := by
  refine ⟨?_, ?_, ?_⟩
  · rintro rfl; exact absurd h (by decide)
  · rintro rfl; exact absurd h (by decide)
  · by_contra hs
    rw [Bool.not_eq_false] at hs
    unfold isCSpace at hs
    simp only [Bool.or_eq_true, beq_iff_eq] at hs
    rcases hs with ((((hs | hs) | hs) | hs) | hs) | hs <;> subst hs <;>
      exact absurd h (by decide)

lemma parseDigits_isSome (l : List Char) :
    (parseDigits l).isSome = true ↔ l.takeWhile Char.isDigit ≠ [] := by
  unfold parseDigits
  rcases h : l.takeWhile Char.isDigit with _ | ⟨c, t⟩
  · simp
  · simp

lemma parseDigits_decomp (r : List Char) (h : (parseDigits r).isSome = true) :
    ∃ ds rest, r = ds ++ rest ∧ ds ≠ [] ∧ ∀ c ∈ ds, c.isDigit = true :=
  ⟨r.takeWhile Char.isDigit, r.dropWhile Char.isDigit,
    (List.takeWhile_append_dropWhile _ _).symm, (parseDigits_isSome r).mp h,
    fun _ hc => List.mem_takeWhile_imp hc⟩

lemma scanDecInt_nilCase (l : List Char) (h : l.dropWhile isCSpace = []) :
    scanDecInt l = none := by
  unfold scanDecInt
  rw [h]

lemma scanDecInt_consCase (l : List Char) (c : Char) (r : List Char)
    (h : l.dropWhile isCSpace = c :: r) :
    scanDecInt l =
      if c = '+' then (parseDigits r).map (fun p => ((p.1 : Int), p.2))
      else if c = '-' then (parseDigits r).map (fun p => (-(p.1 : Int), p.2))
      else (parseDigits (c :: r)).map (fun p => ((p.1 : Int), p.2)) := by
  unfold scanDecInt
  rw [h]

/-- Soundness of the `%d` model: a successful scan exhibits the
whitespace / sign / digits / tail decomposition. -/
lemma scanDecInt_shape (l : List Char) (h : (scanDecInt l).isSome = true) :
    ∃ ws sgn ds rest, l = ws ++ sgn ++ ds ++ rest ∧
      (∀ c ∈ ws, isCSpace c = true) ∧
      (sgn = [] ∨ sgn = ['+'] ∨ sgn = ['-']) ∧
      ds ≠ [] ∧ (∀ c ∈ ds, c.isDigit = true) := by
  have hsplit : l = l.takeWhile isCSpace ++ l.dropWhile isCSpace :=
    (List.takeWhile_append_dropWhile _ _).symm
  have hws : ∀ c ∈ l.takeWhile isCSpace, isCSpace c = true :=
    fun _ hc => List.mem_takeWhile_imp hc
  rcases hd : l.dropWhile isCSpace with _ | ⟨c, r⟩
  · rw [scanDecInt_nilCase l hd] at h
    exact absurd h (by decide)
  · rw [scanDecInt_consCase l c r hd] at h
    rw [hd] at hsplit
    by_cases hp : c = '+'
    · rw [if_pos hp, Option.isSome_map'] at h
      obtain ⟨ds, rest, rfl, hne, hdig⟩ := parseDigits_decomp r h
      subst hp
      exact ⟨l.takeWhile isCSpace, ['+'], ds, rest, by simpa using hsplit,
        hws, Or.inr (Or.inl rfl), hne, hdig⟩
    · rw [if_neg hp] at h
      by_cases hm : c = '-'
      · rw [if_pos hm, Option.isSome_map'] at h
        obtain ⟨ds, rest, rfl, hne, hdig⟩ := parseDigits_decomp r h
        subst hm
        exact ⟨l.takeWhile isCSpace, ['-'], ds, rest, by simpa using hsplit,
          hws, Or.inr (Or.inr rfl), hne, hdig⟩
      · rw [if_neg hm, Option.isSome_map'] at h
        obtain ⟨ds, rest, hcr, hne, hdig⟩ := parseDigits_decomp (c :: r) h
        refine ⟨l.takeWhile isCSpace, [], ds, rest, ?_, hws, Or.inl rfl,
          hne, hdig⟩
        calc l = l.takeWhile isCSpace ++ (c :: r) := hsplit
          _ = l.takeWhile isCSpace ++ (ds ++ rest) := by rw [hcr]
          _ = l.takeWhile isCSpace ++ [] ++ ds ++ rest := by simp

/-- Completeness of the `%d` model: any such decomposition scans
successfully. -/
lemma scanDecInt_of_shape (ws sgn ds rest : List Char)
    (hws : ∀ c ∈ ws, isCSpace c = true)
    (hsgn : sgn = [] ∨ sgn = ['+'] ∨ sgn = ['-'])
    (hds : ds ≠ []) (hdig : ∀ c ∈ ds, c.isDigit = true) :
    (scanDecInt (ws ++ sgn ++ ds ++ rest)).isSome = true := by
  obtain ⟨d, ds', rfl⟩ : ∃ d ds', ds = d :: ds' := by
    cases ds with
    | nil => exact absurd rfl hds
    | cons d ds' => exact ⟨d, ds', rfl⟩
  have hd : d.isDigit = true := hdig d (List.mem_cons_self _ _)
  obtain ⟨hdp, hdm, hdspace⟩ := isDigit_not_special hd
  rcases hsgn with rfl | rfl | rfl
  · rw [show ws ++ [] ++ (d :: ds') ++ rest = ws ++ (d :: (ds' ++ rest))
      by simp]
    have hdrop : (ws ++ (d :: (ds' ++ rest))).dropWhile isCSpace =
        d :: (ds' ++ rest) := by
      rw [dropWhile_append_of_all ws _ hws, List.dropWhile_cons,
        if_neg (by simp [hdspace])]
    rw [scanDecInt_consCase _ d (ds' ++ rest) hdrop, if_neg hdp, if_neg hdm,
      Option.isSome_map', parseDigits_isSome, List.takeWhile_cons, if_pos hd]
    exact List.cons_ne_nil _ _
  · rw [show ws ++ ['+'] ++ (d :: ds') ++ rest =
        ws ++ ('+' :: (d :: (ds' ++ rest))) by simp]
    have hdrop : (ws ++ ('+' :: (d :: (ds' ++ rest)))).dropWhile isCSpace =
        '+' :: (d :: (ds' ++ rest)) := by
      rw [dropWhile_append_of_all ws _ hws, List.dropWhile_cons,
        if_neg (by decide)]
    rw [scanDecInt_consCase _ '+' (d :: (ds' ++ rest)) hdrop, if_pos rfl,
      Option.isSome_map', parseDigits_isSome, List.takeWhile_cons, if_pos hd]
    exact List.cons_ne_nil _ _
  · rw [show ws ++ ['-'] ++ (d :: ds') ++ rest =
        ws ++ ('-' :: (d :: (ds' ++ rest))) by simp]
    have hdrop : (ws ++ ('-' :: (d :: (ds' ++ rest)))).dropWhile isCSpace =
        '-' :: (d :: (ds' ++ rest)) := by
      rw [dropWhile_append_of_all ws _ hws, List.dropWhile_cons,
        if_neg (by decide)]
    rw [scanDecInt_consCase _ '-' (d :: (ds' ++ rest)) hdrop,
      if_neg (by decide), if_pos rfl, Option.isSome_map', parseDigits_isSome,
      List.takeWhile_cons, if_pos hd]
    exact List.cons_ne_nil _ _

lemma sscanfPort_isSome (s : List Char) :
    (sscanfPort s).isSome = true ↔
      ∃ t, s = ['p', 'o', 'r', 't', '='] ++ t ∧
        (scanDecInt t).isSome = true := by
  unfold sscanfPort
  rcases hm : matchLiteral ['p', 'o', 'r', 't', '='] s with _ | t
  · simp only [Option.isSome_none, Bool.false_eq_true, false_iff]
    rintro ⟨t, rfl, _⟩
    rw [(matchLiteral_eq_some _ _ t).mpr rfl] at hm
    exact Option.noConfusion hm
  · have hs := (matchLiteral_eq_some _ s t).mp hm
    simp only [Option.isSome_map']
    constructor
    · intro h
      exact ⟨t, hs, h⟩
    · rintro ⟨t', ht', h'⟩
      have : t = t' := List.append_cancel_left (hs ▸ ht')
      exact this ▸ h'

/-- C10: `Agent_OnLoad` rejects its options — refusing to load — exactly
when the options string is null or does not begin with the literal prefix
`port=` followed by a `%d`-parseable decimal integer (optional leading
whitespace, optional sign, at least one digit); trailing characters after
the integer are ignored, and any parsed value, negative ones included, is
accepted as the configured port. -/
theorem C10_agentOptions (s : List Char) :
    Agent_OnLoad_parse none = none ∧
    ((Agent_OnLoad_parse (some s)).isSome = true ↔ portOptionShape s) ∧
    Agent_OnLoad_parse
      (some ['p', 'o', 'r', 't', '=', '8', '0', 'a', 'b', 'c']) = some 80 ∧
    Agent_OnLoad_parse (some ['p', 'o', 'r', 't', '=', '-', '1']) =
      some (-1) := by
  refine ⟨rfl, ?_, by decide, by decide⟩
  show (sscanfPort s).isSome = true ↔ portOptionShape s
  rw [sscanfPort_isSome]
  constructor
  · rintro ⟨t, rfl, ht⟩
    obtain ⟨ws, sgn, ds, rest, rfl, h1, h2, h3, h4⟩ := scanDecInt_shape t ht
    exact ⟨ws, sgn, ds, rest, by simp, h1, h2, h3, h4⟩
  · rintro ⟨ws, sgn, ds, rest, rfl, h1, h2, h3, h4⟩
    refine ⟨ws ++ sgn ++ ds ++ rest, by simp, ?_⟩
    exact scanDecInt_of_shape ws sgn ds rest h1 h2 h3 h4

/-- C10 witness: `port=80abc` has the accepted shape, obtained by applying
`C10_agentOptions` to the parser's concrete success on that string. -/
theorem C10_witness :
    portOptionShape ['p', 'o', 'r', 't', '=', '8', '0', 'a', 'b', 'c'] :=
  ((C10_agentOptions
      ['p', 'o', 'r', 't', '=', '8', '0', 'a', 'b', 'c']).2.1).mp (by decide)

end AStack
